import Mathlib

/-!
Verification development for the personal-finance-advisor transaction
pipeline.  The definitions below are a shallow embedding of the Python
source: the document-processor parsing stage
(`agents/document_processor.py`), the merchant keyword categorizer
(`utils/merchant_database.py`) and the content-analyzer fallback
classifier (`agents/content_analyzer.py`).  Monetary values and
confidences are modelled as rationals (the code only parses, stores and
copies them; it never does float arithmetic on them), Python strings as
Lean `String`/`List Char` restricted to ASCII, and the external LLM call
as an oracle parameter describing the outcome of the single call.
-/

/-- First result of an option-valued function over a list, mirroring a
Python loop that returns on the first success. -/
def firstSome {α β : Type} : List α → (α → Option β) → Option β
  | [], _ => none
  | a :: as, f =>
    match f a with
    | some b => some b
    | none => firstSome as f

theorem firstSome_eq_some {α β : Type} (l : List α) (f : α → Option β) (b : β)
    (h : firstSome l f = some b) : ∃ a ∈ l, f a = some b := by
  induction l with
  | nil => simp [firstSome] at h
  | cons a as ih =>
    simp only [firstSome] at h
    cases hfa : f a with
    | some b' =>
      rw [hfa] at h
      exact ⟨a, List.mem_cons_self a as, hfa.trans h⟩
    | none =>
      rw [hfa] at h
      obtain ⟨x, hx, hfx⟩ := ih h
      exact ⟨x, List.mem_cons_of_mem a hx, hfx⟩

theorem length_dropWhile_le' (p : Char → Bool) :
    ∀ l : List Char, (l.dropWhile p).length ≤ l.length := by
  intro l
  induction l with
  | nil => simp [List.dropWhile]
  | cons c cs ih =>
    simp only [List.dropWhile]
    cases p c
    · simp
    · simpa using Nat.le_succ_of_le ih

/-- Whitespace characters recognised by Python `str.strip`, `\s` in the
ASCII range. -/
def isPySpace (c : Char) : Bool :=
  c == ' ' || c == '\t' || c == '\n' || c == '\x0d' || c == '\x0b' || c == '\x0c'

/-- Python `str.strip()` on a character list. -/
def stripChars (l : List Char) : List Char :=
  ((l.dropWhile isPySpace).reverse.dropWhile isPySpace).reverse

/-- Python `str.strip()`. -/
def pyStrip (s : String) : String :=
  ⟨stripChars s.data⟩

/-- Python `str.lower()` (ASCII). -/
def pyLower (s : String) : String :=
  ⟨s.data.map Char.toLower⟩

/-- Python substring test `needle in hay` on character lists. -/
def isSubChars (needle hay : List Char) : Bool :=
  hay.tails.any (fun t => needle.isPrefixOf t)

/-- Python substring test `needle in hay` on strings. -/
def pyContains (hay needle : String) : Bool :=
  isSubChars needle.data hay.data

/-- Word characters of the regex class `\w` (ASCII). -/
def isWordChar (c : Char) : Bool :=
  c.isAlpha || c.isDigit || c == '_'

/-- Substitution `re.sub(r'[#*]\w*', '', s)`: drop each `#` or `*`
together with the run of word characters following it.  The boolean
state records whether we are inside such a reference code. -/
def subRefCodesAux : Bool → List Char → List Char
  | _, [] => []
  | inRef, c :: cs =>
    if inRef && isWordChar c then subRefCodesAux true cs
    else if c == '#' || c == '*' then subRefCodesAux true cs
    else c :: subRefCodesAux false cs

/-- Substitution `re.sub(r'[#*]\w*', '', s)` on a character list. -/
def subRefCodes (l : List Char) : List Char :=
  subRefCodesAux false l

/-- Emission step for a finished digit run: runs of four or more digits
are removed, shorter runs are kept. -/
def emitDigitRun (run : List Char) : List Char :=
  if 4 ≤ run.length then [] else run

/-- Substitution `re.sub(r'\d{4,}', '', s)`: remove every maximal digit
run of length at least four.  The accumulator carries the digit run
currently being read. -/
def subLongDigitsAux (run : List Char) : List Char → List Char
  | [] => emitDigitRun run
  | c :: cs =>
    if c.isDigit then subLongDigitsAux (run ++ [c]) cs
    else emitDigitRun run ++ (c :: subLongDigitsAux [] cs)

/-- Substitution `re.sub(r'\d{4,}', '', s)` on a character list. -/
def subLongDigits (l : List Char) : List Char :=
  subLongDigitsAux [] l

/-- Substitution `re.sub(r'\s+', ' ', s)`: collapse each maximal
whitespace run to a single space.  The boolean state records whether the
previous character was whitespace. -/
def collapseWsAux : Bool → List Char → List Char
  | _, [] => []
  | prevWs, c :: cs =>
    if isPySpace c then
      if prevWs then collapseWsAux true cs else ' ' :: collapseWsAux true cs
    else
      c :: collapseWsAux false cs

/-- Substitution `re.sub(r'\s+', ' ', s)` on a character list. -/
def collapseWs (l : List Char) : List Char :=
  collapseWsAux false l

/-- Keyword table of `MerchantDatabase.merchant_keywords`, in the exact
category and keyword order of the source (Python dicts preserve
insertion order). -/
def merchantKeywords : List (String × List String) :=
  [("food_dining",
    ["starbucks", "dunkin", "dunkin donuts", "coffee", "cafe",
     "mcdonalds", "burger king", "subway", "kfc", "taco bell",
     "chipotle", "panera", "panda express", "pizza hut", "dominos",
     "restaurant", "bistro", "grill", "kitchen", "diner", "eatery",
     "food truck", "catering", "bakery",
     "uber eats", "doordash", "grubhub", "postmates", "food delivery"]),
   ("groceries",
    ["walmart", "target", "costco", "sams club", "sam's club",
     "kroger", "safeway", "publix", "wegmans", "giant", "stop shop",
     "whole foods", "trader joe", "aldi", "food lion", "harris teeter",
     "market", "grocery", "supermarket", "supercenter", "food store"]),
   ("transportation",
    ["shell", "exxon", "chevron", "bp", "mobil", "citgo", "arco",
     "gas station", "fuel", "gasoline", "petrol",
     "uber", "lyft", "taxi", "cab", "rideshare",
     "metro", "mta", "transit", "bus", "train", "subway",
     "parking", "garage", "meter",
     "airline", "airport", "flight", "car rental", "hertz", "enterprise"]),
   ("shopping",
    ["amazon", "ebay", "etsy", "best buy", "apple store", "microsoft",
     "home depot", "lowes", "macys", "kohls", "tj maxx", "marshalls",
     "ross", "old navy", "gap", "nike", "adidas", "mall", "outlet"]),
   ("bills_utilities",
    ["electric", "power", "energy", "utility", "water", "sewer",
     "gas bill", "internet", "cable", "phone", "wireless",
     "verizon", "att", "at&t", "comcast", "spectrum", "xfinity",
     "municipal", "city of", "county of"]),
   ("entertainment",
    ["netflix", "spotify", "hulu", "disney", "amazon prime",
     "apple music", "youtube", "gaming", "steam", "playstation",
     "xbox", "nintendo", "movie", "theater", "cinema", "concert"]),
   ("healthcare",
    ["cvs", "walgreens", "rite aid", "pharmacy", "medical",
     "doctor", "dentist", "hospital", "clinic", "health"]),
   ("atm_cash",
    ["atm", "withdrawal", "cash advance", "cash back", "cashout"]),
   ("income",
    ["direct deposit", "salary", "payroll", "interest", "dividend",
     "refund", "tax refund", "deposit", "credit"]),
   ("fees",
    ["fee", "charge", "penalty", "overdraft", "maintenance",
     "service charge", "foreign", "atm fee"])]

/-- Cleaning step `MerchantDatabase._clean_description_for_matching`:
drop reference codes, drop runs of four or more digits, collapse
whitespace, strip. -/
def cleanDescriptionForMatching (s : String) : String :=
  ⟨stripChars (collapseWs (subLongDigits (subRefCodes s.data)))⟩

/-- Tier table of `MerchantDatabase._calculate_confidence`. -/
def calculateConfidence (matchedKeyword : String) : ℚ :=
  if matchedKeyword ∈ ["starbucks", "walmart", "amazon", "netflix"] then 0.95
  else if matchedKeyword ∈ ["gas station", "grocery", "pharmacy"] then 0.90
  else if matchedKeyword ∈ ["restaurant", "cafe", "market"] then 0.75
  else 0.80

/-- Inner keyword loop of `MerchantDatabase.categorize_transaction`:
first keyword occurring as a substring of the cleaned description. -/
def firstMatchingKeyword (descClean : String) : List String → Option String
  | [] => none
  | k :: ks =>
    if pyContains descClean k then some k else firstMatchingKeyword descClean ks

/-- Outer category loop of `MerchantDatabase.categorize_transaction`. -/
def categorizeFrom (descClean : String) : List (String × List String) → String × ℚ
  | [] => ("uncategorized", 0.0)
  | (category, keywords) :: rest =>
    match firstMatchingKeyword descClean keywords with
    | some kw => (category, calculateConfidence kw)
    | none => categorizeFrom descClean rest

/-- Embedding of `MerchantDatabase.categorize_transaction`. -/
def categorize_transaction (description : String) : String × ℚ :=
  let descLower := pyStrip (pyLower description)
  let descClean := cleanDescriptionForMatching descLower
  categorizeFrom descClean merchantKeywords

/-- Keyword pairs flattened in traversal order (category-major), used to
state the first-match contract. -/
def allKeywordPairs : List (String × String) :=
  merchantKeywords.flatMap (fun p => p.2.map (fun k => (p.1, k)))

/-- Transaction record built by `DocumentProcessorAgent._extract_transaction_data`
and mutated by the categorization stages.  The `reasoning` key is absent
until the content analyzer writes it, modelled as an `Option`. -/
structure Transaction where
  date : String
  description : String
  amount : ℚ
  is_debit : Bool
  balance : ℚ
  category : String
  confidence : ℚ
  source : String
  original_line : String
  pattern_used : String
  transaction_id : String
  reasoning : Option String
deriving Repr, DecidableEq, Inhabited

/-- JSON values, the possible results of `json.loads` on the LLM
response text. -/
inductive JValue where
  | jnull : JValue
  | jbool : Bool → JValue
  | jnum : ℚ → JValue
  | jstr : String → JValue
  | jarr : List JValue → JValue
  | jobj : List (String × JValue) → JValue

/-- Lookup in a JSON object; later duplicate keys win, as in a Python
dict built by `json.loads`. -/
def jlookup (kvs : List (String × JValue)) (key : String) : Option JValue :=
  kvs.foldl (fun acc kv => if kv.1 == key then some kv.2 else acc) none

/-- Validated entry of the pydantic model `TransactionCategory`:
`transaction_id : str`, `category : str`,
`confidence : float (ge=0, le=1)`, `reasoning : str`. -/
structure TransactionCategory where
  transaction_id : String
  category : String
  confidence : ℚ
  reasoning : String
deriving Repr, DecidableEq, Inhabited

/-- Pydantic validation of one element of the `categorizations` list:
the four fields must be present with the right types and the confidence
within `[0, 1]`.  No constraint relates `category` to any vocabulary. -/
def validateEntry (j : JValue) : Option TransactionCategory :=
  match j with
  | JValue.jobj kvs =>
    match jlookup kvs "transaction_id", jlookup kvs "category",
          jlookup kvs "confidence", jlookup kvs "reasoning" with
    | some (JValue.jstr tid), some (JValue.jstr cat),
      some (JValue.jnum conf), some (JValue.jstr reas) =>
      if 0 ≤ conf ∧ conf ≤ 1 then some ⟨tid, cat, conf, reas⟩ else none
    | _, _, _, _ => none
  | _ => none

/-- All-or-nothing validation of the `categorizations` list: any
invalid element fails the whole response, as a pydantic
`ValidationError` does. -/
def validateEntries : List JValue → Option (List TransactionCategory)
  | [] => some []
  | e :: es =>
    match validateEntry e, validateEntries es with
    | some c, some cs => some (c :: cs)
    | _, _ => none

/-- Pydantic validation `BatchCategorizationResponse(**json.loads(r))`:
the decoded value must be an object whose `categorizations` key holds a
list, and every element must validate as a `TransactionCategory`. -/
def validateBatch (j : JValue) : Option (List TransactionCategory) :=
  match j with
  | JValue.jobj kvs =>
    match jlookup kvs "categorizations" with
    | some (JValue.jarr elems) => validateEntries elems
    | _ => none
  | _ => none

/-- Outcome of the single `self.llm.make_call` invocation, as observed
by the content analyzer: a falsy return value, an exception anywhere in
the call or in `json.loads`, or a decoded JSON value. -/
inductive LLMOutcome where
  | failed : LLMOutcome
  | raised : LLMOutcome
  | json : JValue → LLMOutcome

/-- Fallback of `ContentAnalyzerAgent._apply_fallback_categorization`:
category `other`, confidence `0.3`, source `fallback`. -/
def apply_fallback_categorization (transactions : List Transaction) : List Transaction :=
  transactions.map (fun t =>
    { t with category := "other", confidence := 0.3, source := "fallback",
             reasoning := some "LLM unavailable" })

/-- Dict comprehension lookup of `_apply_llm_categorization`: the last
entry with the given `transaction_id` wins, as in a Python dict built
from the list. -/
def catLookup (cats : List TransactionCategory) (tid : String) : Option TransactionCategory :=
  cats.foldl (fun acc c => if c.transaction_id == tid then some c else acc) none

/-- Loop body of `ContentAnalyzerAgent._apply_llm_categorization`,
carrying the `enumerate` index: positional id `txn_i` looked up in the
response, missing ids defaulted. -/
def applyLLMFrom (cats : List TransactionCategory) : Nat → List Transaction → List Transaction
  | _, [] => []
  | i, t :: ts =>
    (match catLookup cats ("txn_" ++ toString i) with
     | some c =>
       { t with category := c.category, confidence := c.confidence,
                source := "llm", reasoning := some c.reasoning }
     | none =>
       { t with category := "other", confidence := 0.5, source := "fallback",
                reasoning := some "LLM response incomplete" })
    :: applyLLMFrom cats (i + 1) ts

/-- Embedding of `ContentAnalyzerAgent._apply_llm_categorization`. -/
def apply_llm_categorization (transactions : List Transaction)
    (cats : List TransactionCategory) : List Transaction :=
  applyLLMFrom cats 0 transactions

/-- Embedding of `ContentAnalyzerAgent._batch_categorize_with_llm`: one
LLM call, response validated, otherwise the wholesale fallback. -/
def batch_categorize_with_llm (transactions : List Transaction)
    (outcome : LLMOutcome) : List Transaction :=
  match outcome with
  | LLMOutcome.failed => apply_fallback_categorization transactions
  | LLMOutcome.raised => apply_fallback_categorization transactions
  | LLMOutcome.json j =>
    match validateBatch j with
    | some cats => apply_llm_categorization transactions cats
    | none => apply_fallback_categorization transactions

/-- Embedding of `ContentAnalyzerAgent.process`.  The second component
counts the external LLM calls issued during the invocation
(`llm_calls_made` increments). -/
def contentAnalyzerProcess (transactions : List Transaction)
    (outcome : LLMOutcome) : List Transaction × Nat :=
  let alreadyCategorized := transactions.filter (fun t => t.category != "uncategorized")
  let needsLLM := transactions.filter (fun t => t.category == "uncategorized")
  if needsLLM.isEmpty then (alreadyCategorized, 0)
  else (alreadyCategorized ++ batch_categorize_with_llm needsLLM outcome, 1)

/-- Category vocabulary `ContentAnalyzerAgent.valid_categories` (keys
only), in source order. -/
def validCategories : List String :=
  ["food_dining", "groceries", "transportation", "shopping",
   "bills_utilities", "entertainment", "healthcare", "income",
   "fees", "other"]

/-- Python `s.startswith(c)` for a single character. -/
def pyStartsWith (s : String) (c : Char) : Bool :=
  match s.data with
  | c0 :: _ => c0 == c
  | [] => false

/-- Debit keywords of `_is_debit_transaction`, in source order. -/
def debitKeywords : List String :=
  ["withdrawal", "purchase", "payment", "fee", "charge"]

/-- Credit keywords of `_is_debit_transaction`, in source order. -/
def creditKeywords : List String :=
  ["deposit", "interest", "refund", "credit", "salary"]

/-- Embedding of `DocumentProcessorAgent._is_debit_transaction`:
explicit sign first, then debit keywords, then credit keywords, then the
debit default. -/
def is_debit_transaction (amountStr line : String) : Bool :=
  if pyStartsWith amountStr '-' || pyStartsWith amountStr '+' then
    pyStartsWith amountStr '-'
  else
    let lineLower := pyLower line
    if debitKeywords.any (fun k => pyContains lineLower k) then true
    else if creditKeywords.any (fun k => pyContains lineLower k) then false
    else true

/-- Numeric value of a digit list, most significant first. -/
def digitsToNat (l : List Char) : Nat :=
  l.foldl (fun a c => 10 * a + (c.toNat - 48)) 0

/-- Python `float()` restricted to the token shapes the amount patterns
can produce once `$` and `,` are removed: an optional sign, digits, an
optional decimal point, digits.  At least one digit is required
(`float("")`, `float(".")`, `float("-")` raise).  Returns `none` where
`float` raises. -/
def pyFloatSimple (l : List Char) : Option ℚ :=
  let (sign, rest) :=
    match l with
    | '-' :: r => ((-1 : ℚ), r)
    | '+' :: r => ((1 : ℚ), r)
    | r => ((1 : ℚ), r)
  let intPart := rest.takeWhile (·.isDigit)
  let rest2 := rest.dropWhile (·.isDigit)
  match rest2 with
  | [] => if intPart.isEmpty then none else some (sign * digitsToNat intPart)
  | '.' :: fracTail =>
    let fracPart := fracTail.takeWhile (·.isDigit)
    let rest3 := fracTail.dropWhile (·.isDigit)
    if rest3.isEmpty then
      if intPart.isEmpty && fracPart.isEmpty then none
      else some (sign * ((digitsToNat (intPart ++ fracPart) : ℚ) / (10 ^ fracPart.length)))
    else none
  | _ => none

/-- Embedding of `DocumentProcessorAgent._parse_amount`: strip `$` and
commas, parse as a float, default `0.0` on failure. -/
def parse_amount (s : String) : ℚ :=
  (pyFloatSimple (s.data.filter (fun c => !(c == '$' || c == ',')))).getD 0

/-- Calendar date as validated by `datetime.strptime`. -/
structure PyDate where
  year : Nat
  month : Nat
  day : Nat
deriving Repr, DecidableEq, Inhabited

/-- Gregorian leap-year rule used by `datetime`. -/
def isLeapYear (y : Nat) : Bool :=
  (y % 4 == 0 && y % 100 != 0) || y % 400 == 0

/-- Days in a month, as enforced by the `datetime` constructor. -/
def daysInMonth (y m : Nat) : Nat :=
  if m == 2 then (if isLeapYear y then 29 else 28)
  else if m ∈ [4, 6, 9, 11] then 30
  else 31

/-- Candidates of the strptime directive `%m`, whose compiled regex is
`1[0-2]|0[1-9]|[1-9]`, in alternation order: each candidate is the
parsed month paired with the unconsumed input. -/
def parseDirectiveM : List Char → List (Nat × List Char)
  | c1 :: c2 :: rest =>
    (if c1 = '1' ∧ '0' ≤ c2 ∧ c2 ≤ '2' then [(10 + (c2.toNat - 48), rest)] else [])
    ++ (if c1 = '0' ∧ '1' ≤ c2 ∧ c2 ≤ '9' then [(c2.toNat - 48, rest)] else [])
    ++ (if '1' ≤ c1 ∧ c1 ≤ '9' then [(c1.toNat - 48, c2 :: rest)] else [])
  | [c1] => if '1' ≤ c1 ∧ c1 ≤ '9' then [(c1.toNat - 48, [])] else []
  | [] => []

/-- Candidates of the strptime directive `%d`, whose compiled regex is
`3[0-1]|[1-2]\d|0[1-9]|[1-9]| [1-9]`, in alternation order. -/
def parseDirectiveD : List Char → List (Nat × List Char)
  | c1 :: c2 :: rest =>
    (if c1 = '3' ∧ '0' ≤ c2 ∧ c2 ≤ '1' then [(30 + (c2.toNat - 48), rest)] else [])
    ++ (if ('1' ≤ c1 ∧ c1 ≤ '2') ∧ c2.isDigit then
          [((c1.toNat - 48) * 10 + (c2.toNat - 48), rest)] else [])
    ++ (if c1 = '0' ∧ '1' ≤ c2 ∧ c2 ≤ '9' then [(c2.toNat - 48, rest)] else [])
    ++ (if '1' ≤ c1 ∧ c1 ≤ '9' then [(c1.toNat - 48, c2 :: rest)] else [])
    ++ (if c1 = ' ' ∧ '1' ≤ c2 ∧ c2 ≤ '9' then [(c2.toNat - 48, rest)] else [])
  | [c1] => if '1' ≤ c1 ∧ c1 ≤ '9' then [(c1.toNat - 48, [])] else []
  | [] => []

/-- Candidate of the strptime directive `%Y`, whose compiled regex is
exactly four digits. -/
def parseDirectiveY : List Char → List (Nat × List Char)
  | c1 :: c2 :: c3 :: c4 :: rest =>
    if c1.isDigit ∧ c2.isDigit ∧ c3.isDigit ∧ c4.isDigit then
      [(digitsToNat [c1, c2, c3, c4], rest)]
    else []
  | _ => []

/-- Month abbreviations matched case-insensitively by the strptime
directive `%b`. -/
def monthAbbrevs : List String :=
  ["jan", "feb", "mar", "apr", "may", "jun",
   "jul", "aug", "sep", "oct", "nov", "dec"]

/-- Candidate of the strptime directive `%b`: three characters compared
case-insensitively against the month abbreviations. -/
def parseDirectiveB : List Char → List (Nat × List Char)
  | c1 :: c2 :: c3 :: rest =>
    match monthAbbrevs.indexOf? (⟨[c1.toLower, c2.toLower, c3.toLower]⟩ : String) with
    | some i => [(i + 1, rest)]
    | none => []
  | _ => []

/-- Literal character inside a strptime format. -/
def expectChar (c : Char) : List Char → Option (List Char)
  | c' :: rest => if c' = c then some rest else none
  | _ => none

/-- Validation performed by the `datetime` constructor after the format
regex matched: `MINYEAR = 1`, `MAXYEAR = 9999`, month in range, day
within the month. -/
def mkValidDate (y m d : Nat) : Option PyDate :=
  if 1 ≤ y ∧ y ≤ 9999 ∧ 1 ≤ m ∧ m ≤ 12 ∧ 1 ≤ d ∧ d ≤ daysInMonth y m then
    some ⟨y, m, d⟩
  else none

/-- Strptime with format `%m/%d/%Y` (whole-string match). -/
def strptimeMDYSlash (l : List Char) : Option PyDate :=
  firstSome (parseDirectiveM l) (fun mr =>
    match expectChar '/' mr.2 with
    | none => none
    | some r2 =>
      firstSome (parseDirectiveD r2) (fun dr =>
        match expectChar '/' dr.2 with
        | none => none
        | some r4 =>
          firstSome (parseDirectiveY r4) (fun yr =>
            if yr.2.isEmpty then mkValidDate yr.1 mr.1 dr.1 else none)))

/-- Strptime with format `%m-%d-%Y` (whole-string match). -/
def strptimeMDYDash (l : List Char) : Option PyDate :=
  firstSome (parseDirectiveM l) (fun mr =>
    match expectChar '-' mr.2 with
    | none => none
    | some r2 =>
      firstSome (parseDirectiveD r2) (fun dr =>
        match expectChar '-' dr.2 with
        | none => none
        | some r4 =>
          firstSome (parseDirectiveY r4) (fun yr =>
            if yr.2.isEmpty then mkValidDate yr.1 mr.1 dr.1 else none)))

/-- Strptime with format `%Y-%m-%d` (whole-string match). -/
def strptimeYMD (l : List Char) : Option PyDate :=
  firstSome (parseDirectiveY l) (fun yr =>
    match expectChar '-' yr.2 with
    | none => none
    | some r2 =>
      firstSome (parseDirectiveM r2) (fun mr =>
        match expectChar '-' mr.2 with
        | none => none
        | some r4 =>
          firstSome (parseDirectiveD r4) (fun dr =>
            if dr.2.isEmpty then mkValidDate yr.1 mr.1 dr.1 else none)))

/-- Strptime with format `%d-%b-%Y` (whole-string match). -/
def strptimeDBY (l : List Char) : Option PyDate :=
  firstSome (parseDirectiveD l) (fun dr =>
    match expectChar '-' dr.2 with
    | none => none
    | some r2 =>
      firstSome (parseDirectiveB r2) (fun br =>
        match expectChar '-' br.2 with
        | none => none
        | some r4 =>
          firstSome (parseDirectiveY r4) (fun yr =>
            if yr.2.isEmpty then mkValidDate yr.1 br.1 dr.1 else none)))

/-- Embedding of `DocumentProcessorAgent._parse_date`: the four formats
are tried in source order, the first successful parse wins; `none`
stands for the `datetime.now()` fallback. -/
def parse_date (s : String) : Option PyDate :=
  match strptimeMDYSlash s.data with
  | some d => some d
  | none =>
    match strptimeMDYDash s.data with
    | some d => some d
    | none =>
      match strptimeYMD s.data with
      | some d => some d
      | none => strptimeDBY s.data

/-- Decimal rendering of a field of `strftime('%Y-%m-%d')`: `%m` and
`%d` zero-pad to two digits. -/
def pad2 (n : Nat) : String :=
  if n < 10 then "0" ++ toString n else toString n

/-- Embedding of `parsed_date.strftime('%Y-%m-%d')`.  The year is
rendered as a plain decimal: C `strftime` on glibc and BSD does not
zero-pad `%Y`, so a year below 1000 yields fewer than four digits. -/
def strftimeYMD (d : PyDate) : String :=
  toString d.year ++ "-" ++ pad2 d.month ++ "-" ++ pad2 d.day

/-- Date normalization composed as `_extract_transaction_data` uses it:
parse, then format; `now` is the `datetime.now()` fallback value. -/
def normalizeDate (now : PyDate) (s : String) : String :=
  strftimeYMD ((parse_date s).getD now)

/-- Atom of the transaction-line regexes: every repetition in the three
source patterns ranges over a single character class, so a pattern is a
sequence of such atoms. -/
inductive RAtom where
  | one : (Char → Bool) → RAtom
  | opt : (Char → Bool) → RAtom
  | rep : Nat → Option Nat → (Char → Bool) → Bool → RAtom

/-- Length of the maximal prefix of `s` satisfying `f`. -/
def runLen (f : Char → Bool) (s : List Char) : Nat :=
  (s.takeWhile f).length

/-- Consumption candidates of one atom at the head of `s`, in exactly
the order a backtracking regex engine tries them: greedy repetitions
longest first, lazy (`+?`, `*?`) shortest first, `?` presence first. -/
def atomCandidates : RAtom → List Char → List Nat
  | RAtom.one f, c :: _ => if f c then [1] else []
  | RAtom.one _, [] => []
  | RAtom.opt f, c :: _ => if f c then [1, 0] else [0]
  | RAtom.opt _, [] => [0]
  | RAtom.rep lo hi f lazy, s =>
    let m := runLen f s
    let top := match hi with | some h => min h m | none => m
    if top < lo then []
    else
      let range := (List.range (top - lo + 1)).map (· + lo)
      if lazy then range else range.reverse

/-- Backtracking matcher: find consumption counts, one per atom, such
that the whole atom sequence matches a prefix of `s`; candidate counts
are explored in engine order, so the first solution found is the one
the Python `re` module commits to. -/
def runItems : List RAtom → List Char → Option (List Nat)
  | [], _ => some []
  | it :: rest, s =>
    firstSome (atomCandidates it s) (fun n =>
      (runItems rest (s.drop n)).map (fun ns => n :: ns))

/-- Embedding of `re.search`: try successive start offsets, leftmost
match wins.  Returns the start offset and the per-atom counts. -/
def rsearch (items : List RAtom) : List Char → Nat → Option (Nat × List Nat)
  | s, i =>
    match runItems items s with
    | some ns => some (i, ns)
    | none =>
      match s with
      | [] => none
      | _ :: t => rsearch items t (i + 1)

/-- Capture group: characters of the match covered by the atoms with
indices in `[lo, hi)`, for a match at offset `off` with counts `ns`. -/
def groupChars (s : List Char) (off : Nat) (ns : List Nat) (lo hi : Nat) : List Char :=
  ((s.drop (off + ((ns.take lo).sum))).take (((ns.drop lo).take (hi - lo)).sum))

/-- Character classes appearing in the three transaction patterns. -/
def isDigitCh (c : Char) : Bool := c.isDigit

def isDigitComma (c : Char) : Bool := c.isDigit || c == ','

def isDescChase (c : Char) : Bool :=
  !(c == '-' || c == '+' || c == '$' || c.isDigit)

def isDescWells (c : Char) : Bool :=
  !(c == '$' || c.isDigit)

def isSignCh (c : Char) : Bool := c == '-' || c == '+'

def isDollarCh (c : Char) : Bool := c == '$'

def isDotCh (c : Char) : Bool := c == '.'

def isSlashCh (c : Char) : Bool := c == '/'

def isDashCh (c : Char) : Bool := c == '-'

/-- Format pattern of `_parse_single_transaction`: atom sequence, the
atom-index spans of the four capture groups, and the pattern name. -/
structure FormatPattern where
  items : List RAtom
  dateSpan : Nat × Nat
  descSpan : Nat × Nat
  amountSpan : Nat × Nat
  balanceSpan : Nat × Nat
  name : String

/-- Pattern 1, Chase format:
`(\d{1,2}/\d{1,2}/\d{4})\s+([^-+$\d]+?)\s+([-+]?\$?[\d,]+\.?\d*)\s+\$?([\d,]+\.?\d*)`. -/
def chasePattern : FormatPattern where
  items :=
    [RAtom.rep 1 (some 2) isDigitCh false, RAtom.one isSlashCh,
     RAtom.rep 1 (some 2) isDigitCh false, RAtom.one isSlashCh,
     RAtom.rep 4 (some 4) isDigitCh false,
     RAtom.rep 1 none isPySpace false,
     RAtom.rep 1 none isDescChase true,
     RAtom.rep 1 none isPySpace false,
     RAtom.opt isSignCh, RAtom.opt isDollarCh,
     RAtom.rep 1 none isDigitComma false, RAtom.opt isDotCh,
     RAtom.rep 0 none isDigitCh false,
     RAtom.rep 1 none isPySpace false,
     RAtom.opt isDollarCh,
     RAtom.rep 1 none isDigitComma false, RAtom.opt isDotCh,
     RAtom.rep 0 none isDigitCh false]
  dateSpan := (0, 5)
  descSpan := (6, 7)
  amountSpan := (8, 13)
  balanceSpan := (15, 18)
  name := "Chase Format"

/-- Pattern 2, Wells Fargo format:
`(\d{1,2}-\d{1,2}-\d{4})\s+([^$\d]+?)\s+\$?([\d,]+\.?\d*)\s+\$?([\d,]+\.?\d*)`. -/
def wellsFargoPattern : FormatPattern where
  items :=
    [RAtom.rep 1 (some 2) isDigitCh false, RAtom.one isDashCh,
     RAtom.rep 1 (some 2) isDigitCh false, RAtom.one isDashCh,
     RAtom.rep 4 (some 4) isDigitCh false,
     RAtom.rep 1 none isPySpace false,
     RAtom.rep 1 none isDescWells true,
     RAtom.rep 1 none isPySpace false,
     RAtom.opt isDollarCh,
     RAtom.rep 1 none isDigitComma false, RAtom.opt isDotCh,
     RAtom.rep 0 none isDigitCh false,
     RAtom.rep 1 none isPySpace false,
     RAtom.opt isDollarCh,
     RAtom.rep 1 none isDigitComma false, RAtom.opt isDotCh,
     RAtom.rep 0 none isDigitCh false]
  dateSpan := (0, 5)
  descSpan := (6, 7)
  amountSpan := (9, 12)
  balanceSpan := (14, 17)
  name := "Wells Fargo Format"

/-- Pattern 3, generic format:
`(\d{1,2}/\d{1,2}/\d{4})\s+([A-Za-z][^-+$\d]*?)\s+([-+]?\$?[\d,]+\.?\d*)\s+\$?([\d,]+\.?\d*)`. -/
def genericPattern : FormatPattern where
  items :=
    [RAtom.rep 1 (some 2) isDigitCh false, RAtom.one isSlashCh,
     RAtom.rep 1 (some 2) isDigitCh false, RAtom.one isSlashCh,
     RAtom.rep 4 (some 4) isDigitCh false,
     RAtom.rep 1 none isPySpace false,
     RAtom.one Char.isAlpha, RAtom.rep 0 none isDescChase true,
     RAtom.rep 1 none isPySpace false,
     RAtom.opt isSignCh, RAtom.opt isDollarCh,
     RAtom.rep 1 none isDigitComma false, RAtom.opt isDotCh,
     RAtom.rep 0 none isDigitCh false,
     RAtom.rep 1 none isPySpace false,
     RAtom.opt isDollarCh,
     RAtom.rep 1 none isDigitComma false, RAtom.opt isDotCh,
     RAtom.rep 0 none isDigitCh false]
  dateSpan := (0, 5)
  descSpan := (6, 8)
  amountSpan := (9, 14)
  balanceSpan := (16, 19)
  name := "Generic Format"

/-- Pattern list of `_parse_single_transaction`, in priority order. -/
def transactionPatterns : List FormatPattern :=
  [chasePattern, wellsFargoPattern, genericPattern]

/-- Description cleanup of `_extract_transaction_data`: strip, collapse
whitespace, remove reference codes, strip. -/
def cleanExtractedDescription (l : List Char) : String :=
  ⟨stripChars (subRefCodes (collapseWs (stripChars l)))⟩

/-- Embedding of `DocumentProcessorAgent._extract_transaction_data` for
a successful match of `pat` at offset `off` with counts `ns`;
`now` is the `datetime.now()` fallback used for unparseable dates. -/
def extract_transaction_data (now : PyDate) (pat : FormatPattern)
    (line : String) (off : Nat) (ns : List Nat) : Transaction :=
  let dateStr : String := ⟨groupChars line.data off ns pat.dateSpan.1 pat.dateSpan.2⟩
  let descRaw := groupChars line.data off ns pat.descSpan.1 pat.descSpan.2
  let amountStr : String := ⟨groupChars line.data off ns pat.amountSpan.1 pat.amountSpan.2⟩
  let balanceStr : String := ⟨groupChars line.data off ns pat.balanceSpan.1 pat.balanceSpan.2⟩
  { date := normalizeDate now dateStr
    description := cleanExtractedDescription descRaw
    amount := |parse_amount amountStr|
    is_debit := is_debit_transaction amountStr line
    balance := parse_amount balanceStr
    category := "uncategorized"
    confidence := 0.0
    source := "deterministic"
    original_line := line
    pattern_used := pat.name
    transaction_id := ""
    reasoning := none }

/-- Embedding of `DocumentProcessorAgent._parse_single_transaction`:
patterns tried in order, the first whose regex finds a match in the
line wins; `none` when no pattern matches. -/
def parse_single_transaction (now : PyDate) (line : String) : Option Transaction :=
  firstSome transactionPatterns (fun pat =>
    match rsearch pat.items line.data 0 with
    | some (off, ns) => some (extract_transaction_data now pat line off ns)
    | none => none)

/-- Embedding of `DocumentProcessorAgent._apply_basic_categorization`:
deterministic keyword categorization applied in place; a transaction
keeps `uncategorized` when the merchant database reports no match. -/
def apply_basic_categorization (transactions : List Transaction) : List Transaction :=
  transactions.map (fun t =>
    if (categorize_transaction t.description).1 != "uncategorized" then
      { t with category := (categorize_transaction t.description).1,
               confidence := (categorize_transaction t.description).2,
               source := "deterministic" }
    else t)

theorem firstMatchingKeyword_eq_find? (d : String) :
    ∀ ks : List String, firstMatchingKeyword d ks = ks.find? (fun k => pyContains d k) := by
  intro ks
  induction ks with
  | nil => rfl
  | cons k ks ih =>
    simp only [firstMatchingKeyword, List.find?]
    cases h : pyContains d k <;> simp [h, ih]

theorem categorizeFrom_eq_find? (d : String) :
    ∀ kvs : List (String × List String),
      categorizeFrom d kvs =
        match (kvs.flatMap (fun p => p.2.map (fun k => (p.1, k)))).find?
            (fun p => pyContains d p.2) with
        | some p => (p.1, calculateConfidence p.2)
        | none => ("uncategorized", 0.0) := by
  intro kvs
  induction kvs with
  | nil => rfl
  | cons hd rest ih =>
    obtain ⟨c, ks⟩ := hd
    simp only [categorizeFrom, List.flatMap_cons]
    rw [firstMatchingKeyword_eq_find?]
    induction ks with
    | nil => simpa using ih
    | cons k ks ihk =>
      cases h : pyContains d k with
      | true => simp [List.find?, h]
      | false => simpa [List.find?, h] using ihk

/-- C6: for every transaction description, the merchant categorizer
returns the category of the first keyword (categories in fixed order,
keywords in defined order) occurring as a substring of the cleaned
description, with the tiered confidence (brand keywords 0.95;
gas station / grocery / pharmacy 0.90; restaurant / cafe / market 0.75;
all other matches 0.80), and `("uncategorized", 0.0)` when no keyword
matches; in particular `"STARBUCKS STORE #1234"` is cleaned to
`"starbucks store"` and categorized as `food_dining` at `0.95`. -/
theorem c6_merchant_first_match_categorization :
    (∀ description : String,
      categorize_transaction description =
        match allKeywordPairs.find? (fun p =>
            pyContains (cleanDescriptionForMatching (pyStrip (pyLower description))) p.2) with
        | some p => (p.1, calculateConfidence p.2)
        | none => ("uncategorized", 0.0))
    ∧ (∀ kw ∈ (["starbucks", "walmart", "amazon", "netflix"] : List String),
        calculateConfidence kw = 0.95)
    ∧ (∀ kw ∈ (["gas station", "grocery", "pharmacy"] : List String),
        calculateConfidence kw = 0.90)
    ∧ (∀ kw ∈ (["restaurant", "cafe", "market"] : List String),
        calculateConfidence kw = 0.75)
    ∧ (∀ kw : String,
        kw ∉ (["starbucks", "walmart", "amazon", "netflix", "gas station",
               "grocery", "pharmacy", "restaurant", "cafe", "market"] : List String) →
        calculateConfidence kw = 0.80)
    ∧ cleanDescriptionForMatching (pyStrip (pyLower "STARBUCKS STORE #1234"))
        = "starbucks store"
    ∧ categorize_transaction "STARBUCKS STORE #1234" = ("food_dining", 0.95) := by
  refine ⟨?_, ?_, ?_, ?_, ?_, ?_, ?_⟩
  · intro description
    simpa [allKeywordPairs] using
      categorizeFrom_eq_find?
        (cleanDescriptionForMatching (pyStrip (pyLower description))) merchantKeywords
  · intro kw h
    fin_cases h <;> rfl
  · intro kw h
    fin_cases h <;> rfl
  · intro kw h
    fin_cases h <;> rfl
  · intro kw h
    simp only [List.mem_cons, List.not_mem_nil, or_false, not_or] at h
    obtain ⟨h1, h2, h3, h4, h5, h6, h7, h8, h9, h10⟩ := h
    simp [calculateConfidence, h1, h2, h3, h4, h5, h6, h7, h8, h9, h10]
  · decide
  · rfl

/-- Closed instance of C6: the tier hypotheses discharged at the
keywords `walmart` (brand tier) and `bakery` (default tier). -/
theorem c6_merchant_first_match_categorization_witness :
    calculateConfidence "walmart" = 0.95 ∧ calculateConfidence "bakery" = 0.80 :=
  ⟨c6_merchant_first_match_categorization.2.1 "walmart" (by decide),
   c6_merchant_first_match_categorization.2.2.2.2.1 "bakery" (by decide)⟩

/-- C7: the direction inference follows exactly the priority order
explicit sign, then debit keywords, then credit keywords, then the
debit default. -/
theorem c7_is_debit_priority :
    ∀ amountStr line : String,
      ((pyStartsWith amountStr '-' = true ∨ pyStartsWith amountStr '+' = true) →
        is_debit_transaction amountStr line = pyStartsWith amountStr '-')
      ∧ (pyStartsWith amountStr '-' = false → pyStartsWith amountStr '+' = false →
          debitKeywords.any (fun k => pyContains (pyLower line) k) = true →
          is_debit_transaction amountStr line = true)
      ∧ (pyStartsWith amountStr '-' = false → pyStartsWith amountStr '+' = false →
          debitKeywords.any (fun k => pyContains (pyLower line) k) = false →
          creditKeywords.any (fun k => pyContains (pyLower line) k) = true →
          is_debit_transaction amountStr line = false)
      ∧ (pyStartsWith amountStr '-' = false → pyStartsWith amountStr '+' = false →
          debitKeywords.any (fun k => pyContains (pyLower line) k) = false →
          creditKeywords.any (fun k => pyContains (pyLower line) k) = false →
          is_debit_transaction amountStr line = true) := by
  intro a l
  refine ⟨?_, ?_, ?_, ?_⟩
  · rintro (h | h) <;> simp [is_debit_transaction, h]
  · intro h1 h2 h3
    simp [is_debit_transaction, h1, h2, h3]
  · intro h1 h2 h3 h4
    simp [is_debit_transaction, h1, h2, h3, h4]
  · intro h1 h2 h3 h4
    simp [is_debit_transaction, h1, h2, h3, h4]

/-- Closed instance of C7: a signed amount token forces the sign
branch, and an unsigned token on a keyword-free line takes the debit
default. -/
theorem c7_is_debit_priority_witness :
    is_debit_transaction "-$4.50" "02/01/2024 X -$4.50 $1.00" = true
    ∧ is_debit_transaction "8.99" "03-01-2024 ZZZ $8.99 $2.00" = true :=
  ⟨((c7_is_debit_priority "-$4.50" "02/01/2024 X -$4.50 $1.00").1
      (Or.inl (by decide))).trans (by decide),
   (c7_is_debit_priority "8.99" "03-01-2024 ZZZ $8.99 $2.00").2.2.2
      (by decide) (by decide) (by decide) (by decide)⟩

/-- C1: with zero uncategorized transactions the fallback classifier
issues zero external calls and returns the batch unchanged; with at
least one uncategorized transaction it issues exactly one external call
whatever the batch size and whatever the call outcome, including
failures. -/
theorem c1_exactly_one_llm_call :
    ∀ (transactions : List Transaction) (outcome : LLMOutcome),
      ((∀ t ∈ transactions, t.category ≠ "uncategorized") →
        contentAnalyzerProcess transactions outcome = (transactions, 0))
      ∧ (1 ≤ (transactions.filter (fun t => t.category == "uncategorized")).length →
          (contentAnalyzerProcess transactions outcome).2 = 1) := by
  intro transactions outcome
  constructor
  · intro h
    have hneeds : transactions.filter (fun t => t.category == "uncategorized") = [] := by
      rw [List.filter_eq_nil_iff]
      intro t ht
      simpa using h t ht
    have halready : transactions.filter (fun t => t.category != "uncategorized")
        = transactions := by
      rw [List.filter_eq_self]
      intro t ht
      simpa using h t ht
    simp [contentAnalyzerProcess, hneeds, halready]
  · intro h
    have hne : (transactions.filter (fun t => t.category == "uncategorized")).isEmpty
        = false := by
      cases hf : transactions.filter (fun t => t.category == "uncategorized") with
      | nil => rw [hf] at h; simp at h
      | cons a l => simp
    simp [contentAnalyzerProcess, hne]

/-- Sample transaction already categorized by the deterministic stage. -/
def sampleCategorized : Transaction :=
  { date := "2024-02-01", description := "STARBUCKS STORE", amount := 5,
    is_debit := true, balance := 100, category := "food_dining",
    confidence := 1, source := "deterministic",
    original_line := "02/01/2024 STARBUCKS STORE -$5.00 $100.00",
    pattern_used := "Chase Format", transaction_id := "txn_1", reasoning := none }

/-- Sample transaction the deterministic stage left uncategorized. -/
def sampleUncategorized : Transaction :=
  { date := "2024-02-01", description := "MYSTERY SHOP", amount := 5,
    is_debit := true, balance := 100, category := "uncategorized",
    confidence := 0, source := "deterministic",
    original_line := "02/01/2024 MYSTERY SHOP -$5.00 $100.00",
    pattern_used := "Chase Format", transaction_id := "txn_1", reasoning := none }

/-- Closed instance of C1: a fully categorized singleton batch and a
singleton uncategorized batch under a failing external call. -/
theorem c1_exactly_one_llm_call_witness :
    contentAnalyzerProcess [sampleCategorized] LLMOutcome.failed = ([sampleCategorized], 0)
    ∧ (contentAnalyzerProcess [sampleUncategorized] LLMOutcome.failed).2 = 1 :=
  ⟨(c1_exactly_one_llm_call [sampleCategorized] LLMOutcome.failed).1 (by decide),
   (c1_exactly_one_llm_call [sampleUncategorized] LLMOutcome.failed).2 (by decide)⟩

theorem foldl_catLookup_mem (tid : String) (c : TransactionCategory) :
    ∀ (cats : List TransactionCategory) (acc : Option TransactionCategory),
      cats.foldl (fun acc x => if x.transaction_id == tid then some x else acc) acc
        = some c →
      c ∈ cats ∨ acc = some c := by
  intro cats
  induction cats with
  | nil => intro acc h; exact Or.inr h
  | cons a l ih =>
    intro acc h
    simp only [List.foldl_cons] at h
    rcases ih _ h with hc | hc
    · exact Or.inl (List.mem_cons_of_mem a hc)
    · by_cases ha : (a.transaction_id == tid) = true
      · rw [if_pos ha] at hc
        exact Or.inl (by simp [← Option.some_inj.mp hc])
      · rw [if_neg ha] at hc
        exact Or.inr hc

theorem catLookup_mem (cats : List TransactionCategory) (tid : String)
    (c : TransactionCategory) (h : catLookup cats tid = some c) : c ∈ cats := by
  rcases foldl_catLookup_mem tid c cats none h with hc | hc
  · exact hc
  · exact absurd hc (by simp)

theorem mem_apply_fallback (transactions : List Transaction) (t : Transaction)
    (h : t ∈ apply_fallback_categorization transactions) :
    t.category = "other" ∧ t.confidence = 0.3 ∧ t.source = "fallback"
      ∧ t.reasoning = some "LLM unavailable" := by
  obtain ⟨u, _, hu⟩ := List.mem_map.mp h
  subst hu
  exact ⟨rfl, rfl, rfl, rfl⟩

theorem mem_applyLLMFrom (cats : List TransactionCategory) :
    ∀ (i : Nat) (transactions : List Transaction) (t : Transaction),
      t ∈ applyLLMFrom cats i transactions →
      t.category = "other" ∨ ∃ c ∈ cats, t.category = c.category := by
  intro i transactions
  induction transactions generalizing i with
  | nil => intro t ht; simp [applyLLMFrom] at ht
  | cons a l ih =>
    intro t ht
    simp only [applyLLMFrom, List.mem_cons] at ht
    rcases ht with ht | ht
    · cases hc : catLookup cats ("txn_" ++ toString i) with
      | some c =>
        rw [hc] at ht
        exact Or.inr ⟨c, catLookup_mem cats _ c hc, by simp [ht]⟩
      | none =>
        rw [hc] at ht
        exact Or.inl (by simp [ht])
    · exact ih (i + 1) t ht

/-- Entries of a validated external response, empty for failures and
invalid responses. -/
def responseCats : LLMOutcome → List TransactionCategory
  | LLMOutcome.json j => (validateBatch j).getD []
  | _ => []

theorem mem_batch_categorize_category (transactions : List Transaction)
    (outcome : LLMOutcome) (t : Transaction)
    (ht : t ∈ batch_categorize_with_llm transactions outcome) :
    t.category = "other" ∨ ∃ c ∈ responseCats outcome, t.category = c.category := by
  cases outcome with
  | failed => exact Or.inl (mem_apply_fallback _ _ ht).1
  | raised => exact Or.inl (mem_apply_fallback _ _ ht).1
  | json j =>
    cases hv : validateBatch j with
    | none =>
      rw [batch_categorize_with_llm, hv] at ht
      exact Or.inl (mem_apply_fallback _ _ ht).1
    | some cats =>
      rw [batch_categorize_with_llm, hv] at ht
      rcases mem_applyLLMFrom cats 0 transactions t ht with h | ⟨c, hc, hcat⟩
      · exact Or.inl h
      · exact Or.inr ⟨c, by simp [responseCats, hv, hc], hcat⟩

/-- C2 (amended): every transaction leaving the fallback classifier has
a category other than `uncategorized`, PROVIDED no validated response
entry itself carries the literal category string `uncategorized`; the
schema does not exclude that string, so the proviso is necessary. -/
theorem c2_total_coverage :
    ∀ (transactions : List Transaction) (outcome : LLMOutcome),
      (∀ c ∈ responseCats outcome, c.category ≠ "uncategorized") →
      ∀ t ∈ (contentAnalyzerProcess transactions outcome).1,
        t.category ≠ "uncategorized" := by
  intro transactions outcome hresp t ht
  have halready : ∀ u ∈ transactions.filter (fun x => x.category != "uncategorized"),
      u.category ≠ "uncategorized" := by
    intro u hu
    simpa using (List.of_mem_filter hu)
  rw [contentAnalyzerProcess] at ht
  by_cases hempty :
      (transactions.filter (fun x => x.category == "uncategorized")).isEmpty = true
  · rw [if_pos hempty] at ht
    exact halready t ht
  · rw [if_neg hempty] at ht
    rcases List.mem_append.mp ht with h | h
    · exact halready t h
    · rcases mem_batch_categorize_category _ _ _ h with h1 | ⟨c, hc, hcat⟩
      · simp [h1]
      · rw [hcat]
        exact hresp c hc

/-- External response whose single entry is syntactically valid but
echoes the sentinel category. -/
def uncategorizedEchoResponse : JValue :=
  JValue.jobj [("categorizations", JValue.jarr
    [JValue.jobj [("transaction_id", JValue.jstr "txn_0"),
                  ("category", JValue.jstr "uncategorized"),
                  ("confidence", JValue.jnum 1),
                  ("reasoning", JValue.jstr "echoed the sentinel")]])]

/-- Counterexample to C2 as stated: a schema-valid response assigning
the literal `uncategorized` passes validation and is applied verbatim,
so a transaction can exit the fallback classifier still uncategorized. -/
theorem c2_counterexample :
    ((contentAnalyzerProcess [sampleUncategorized]
        (LLMOutcome.json uncategorizedEchoResponse)).1.map
      (fun t => t.category)) = ["uncategorized"] := by
  rfl

/-- Closed instance of the amended C2: the failure outcome has an empty
validated response, and the first output transaction is categorized. -/
theorem c2_total_coverage_witness :
    ((contentAnalyzerProcess [sampleUncategorized] LLMOutcome.failed).1[0]?.get
        (by rfl)).category ≠ "uncategorized" :=
  c2_total_coverage [sampleUncategorized] LLMOutcome.failed (by decide) _
    (List.getElem?_mem (Option.some_get _).symm)

/-- JSON rendering of one response entry with the exact field names the
pydantic model expects. -/
def entryToJson (c : TransactionCategory) : JValue :=
  JValue.jobj [("transaction_id", JValue.jstr c.transaction_id),
               ("category", JValue.jstr c.category),
               ("confidence", JValue.jnum c.confidence),
               ("reasoning", JValue.jstr c.reasoning)]

/-- JSON rendering of a whole response batch. -/
def batchToJson (cats : List TransactionCategory) : JValue :=
  JValue.jobj [("categorizations", JValue.jarr (cats.map entryToJson))]

theorem validateEntry_confidence (j : JValue) (c : TransactionCategory)
    (h : validateEntry j = some c) : 0 ≤ c.confidence ∧ c.confidence ≤ 1 := by
  cases j with
  | jobj kvs =>
    rw [validateEntry] at h
    split at h
    · split_ifs at h with hg
      cases h
      exact hg
    · exact absurd h (by simp)
  | jnull => exact absurd h (by simp [validateEntry])
  | jbool b => exact absurd h (by simp [validateEntry])
  | jnum q => exact absurd h (by simp [validateEntry])
  | jstr s => exact absurd h (by simp [validateEntry])
  | jarr l => exact absurd h (by simp [validateEntry])

theorem validateEntries_mem :
    ∀ (elems : List JValue) (cats : List TransactionCategory),
      validateEntries elems = some cats →
      ∀ c ∈ cats, ∃ e ∈ elems, validateEntry e = some c := by
  intro elems
  induction elems with
  | nil =>
    intro cats h c hc
    simp only [validateEntries, Option.some_inj] at h
    subst h
    simp at hc
  | cons e es ih =>
    intro cats h c hc
    rw [validateEntries] at h
    cases he : validateEntry e with
    | none => rw [he] at h; simp at h
    | some c0 =>
      rw [he] at h
      cases hes : validateEntries es with
      | none => rw [hes] at h; simp at h
      | some cs =>
        rw [hes] at h
        simp only [Option.some_inj] at h
        subst h
        rcases List.mem_cons.mp hc with hc | hc
        · exact ⟨e, List.mem_cons_self e es, by rw [he, hc]⟩
        · obtain ⟨e', he', hv⟩ := ih cs hes c hc
          exact ⟨e', List.mem_cons_of_mem e he', hv⟩

theorem validateEntry_entryToJson (c : TransactionCategory)
    (h : 0 ≤ c.confidence ∧ c.confidence ≤ 1) :
    validateEntry (entryToJson c) = some c := by
  have hred : validateEntry (entryToJson c)
      = if 0 ≤ c.confidence ∧ c.confidence ≤ 1 then some c else none := rfl
  rw [hred, if_pos h]

/-- C3 (amended): the response schema admits any category string — the
vocabulary is not enforced — while a confidence outside `[0, 1]` (or a
missing or ill-typed field) fails validation of the whole response,
which is then treated as a classification failure taking the wholesale
fallback.  Part one: validated entries have in-range confidences.  Part
two: a response built from arbitrary entries with in-range confidences
validates back to exactly those entries, whatever their category
strings.  Part three: a response failing validation routes the whole
batch to the fallback. -/
theorem c3_schema_validation :
    (∀ (j : JValue) (cats : List TransactionCategory),
      validateBatch j = some cats →
      ∀ c ∈ cats, 0 ≤ c.confidence ∧ c.confidence ≤ 1)
    ∧ (∀ cats : List TransactionCategory,
        (∀ c ∈ cats, 0 ≤ c.confidence ∧ c.confidence ≤ 1) →
        validateBatch (batchToJson cats) = some cats)
    ∧ (∀ (transactions : List Transaction) (j : JValue),
        validateBatch j = none →
        batch_categorize_with_llm transactions (LLMOutcome.json j)
          = apply_fallback_categorization transactions) := by
  refine ⟨?_, ?_, ?_⟩
  · intro j cats h c hc
    cases j with
    | jobj kvs =>
      rw [validateBatch] at h
      split at h
      · obtain ⟨e, _, hv⟩ := validateEntries_mem _ _ h c hc
        exact validateEntry_confidence e c hv
      · exact absurd h (by simp)
    | jnull => exact absurd h (by simp [validateBatch])
    | jbool b => exact absurd h (by simp [validateBatch])
    | jnum q => exact absurd h (by simp [validateBatch])
    | jstr s => exact absurd h (by simp [validateBatch])
    | jarr l => exact absurd h (by simp [validateBatch])
  · intro cats hconf
    have hbatch : validateBatch (batchToJson cats)
        = validateEntries (cats.map entryToJson) := rfl
    rw [hbatch]
    clear hbatch
    induction cats with
    | nil => rfl
    | cons c cs ih =>
      simp only [List.map_cons, validateEntries,
        validateEntry_entryToJson c (hconf c (List.mem_cons_self c cs))]
      rw [ih (fun x hx => hconf x (List.mem_cons_of_mem c hx))]
  · intro transactions j h
    simp [batch_categorize_with_llm, h]

/-- External response whose single entry carries a category outside the
closed vocabulary. -/
def outOfVocabEntry : TransactionCategory :=
  { transaction_id := "txn_0", category := "totally_made_up",
    confidence := 1, reasoning := "invented by the model" }

/-- Counterexample to C3 as stated: a response entry whose category is
outside the vocabulary passes validation and is applied to the
transaction rather than rejected. -/
theorem c3_counterexample :
    validateBatch (batchToJson [outOfVocabEntry]) = some [outOfVocabEntry]
    ∧ "totally_made_up" ∉ validCategories
    ∧ ((batch_categorize_with_llm [sampleUncategorized]
          (LLMOutcome.json (batchToJson [outOfVocabEntry]))).map
        (fun t => t.category)) = ["totally_made_up"] :=
  ⟨rfl, by decide, rfl⟩

/-- Closed instance of the amended C3 at a concrete entry and the
`null` response. -/
theorem c3_schema_validation_witness :
    (0 ≤ outOfVocabEntry.confidence ∧ outOfVocabEntry.confidence ≤ 1)
    ∧ validateBatch (batchToJson [outOfVocabEntry]) = some [outOfVocabEntry]
    ∧ batch_categorize_with_llm [sampleUncategorized] (LLMOutcome.json JValue.jnull)
        = apply_fallback_categorization [sampleUncategorized] :=
  ⟨c3_schema_validation.1 (batchToJson [outOfVocabEntry]) [outOfVocabEntry] rfl
      outOfVocabEntry (List.mem_cons_self _ _),
   c3_schema_validation.2.1 [outOfVocabEntry]
      (by intro c hc; fin_cases hc; exact ⟨by decide, by decide⟩),
   c3_schema_validation.2.2 [sampleUncategorized] JValue.jnull rfl⟩

theorem applyLLMFrom_length (cats : List TransactionCategory) :
    ∀ (i : Nat) (transactions : List Transaction),
      (applyLLMFrom cats i transactions).length = transactions.length := by
  intro i transactions
  induction transactions generalizing i with
  | nil => rfl
  | cons a l ih => simpa [applyLLMFrom] using ih (i + 1)

theorem applyLLMFrom_getElem?_missing (cats : List TransactionCategory) :
    ∀ (k : Nat) (transactions : List Transaction) (i : Nat) (t : Transaction),
      (applyLLMFrom cats k transactions)[i]? = some t →
      catLookup cats ("txn_" ++ toString (k + i)) = none →
      t.category = "other" ∧ t.confidence = 0.5 ∧ t.source = "fallback"
        ∧ t.reasoning = some "LLM response incomplete" := by
  intro k transactions
  induction transactions generalizing k with
  | nil => intro i t ht _; simp [applyLLMFrom] at ht
  | cons a l ih =>
    intro i t ht hnone
    cases i with
    | zero =>
      simp only [applyLLMFrom, List.getElem?_cons_zero, Option.some_inj] at ht
      rw [Nat.add_zero] at hnone
      rw [hnone] at ht
      subst ht
      exact ⟨rfl, rfl, rfl, rfl⟩
    | succ i' =>
      simp only [applyLLMFrom, List.getElem?_cons_succ] at ht
      have harith : k + (i' + 1) = (k + 1) + i' := by omega
      rw [harith] at hnone
      exact ih (k + 1) i' t ht hnone

/-- C4: any failing external call (falsy return, exception, or invalid
response) sends the whole needs-classification batch to the wholesale
fallback — category `other`, confidence `0.3`, source `fallback` — and
the classifier still returns one output per input (the failure is not
propagated); a transaction missing from an otherwise valid response
gets category `other`, confidence `0.5`, source `fallback`. -/
theorem c4_failure_fallback_and_partial_default :
    ∀ (transactions : List Transaction) (j : JValue),
      (batch_categorize_with_llm transactions LLMOutcome.failed
          = apply_fallback_categorization transactions)
      ∧ (batch_categorize_with_llm transactions LLMOutcome.raised
          = apply_fallback_categorization transactions)
      ∧ (validateBatch j = none →
          batch_categorize_with_llm transactions (LLMOutcome.json j)
            = apply_fallback_categorization transactions)
      ∧ (∀ t ∈ apply_fallback_categorization transactions,
          t.category = "other" ∧ t.confidence = 0.3 ∧ t.source = "fallback")
      ∧ (∀ outcome : LLMOutcome,
          (batch_categorize_with_llm transactions outcome).length
            = transactions.length)
      ∧ (∀ cats : List TransactionCategory, validateBatch j = some cats →
          ∀ (i : Nat) (t : Transaction),
            (apply_llm_categorization transactions cats)[i]? = some t →
            catLookup cats ("txn_" ++ toString i) = none →
            t.category = "other" ∧ t.confidence = 0.5 ∧ t.source = "fallback") := by
  intro transactions j
  refine ⟨rfl, rfl, ?_, ?_, ?_, ?_⟩
  · intro h
    simp [batch_categorize_with_llm, h]
  · intro t ht
    exact ⟨(mem_apply_fallback _ _ ht).1, (mem_apply_fallback _ _ ht).2.1,
           (mem_apply_fallback _ _ ht).2.2.1⟩
  · intro outcome
    cases outcome with
    | failed => simp [batch_categorize_with_llm, apply_fallback_categorization]
    | raised => simp [batch_categorize_with_llm, apply_fallback_categorization]
    | json j' =>
      cases hv : validateBatch j' with
      | none =>
        simp [batch_categorize_with_llm, hv, apply_fallback_categorization]
      | some cats =>
        simp [batch_categorize_with_llm, hv, apply_llm_categorization,
              applyLLMFrom_length]
  · intro cats _ i t ht hnone
    have h0 : catLookup cats ("txn_" ++ toString (0 + i)) = none := by
      rw [Nat.zero_add]; exact hnone
    have := applyLLMFrom_getElem?_missing cats 0 transactions i t ht h0
    exact ⟨this.1, this.2.1, this.2.2.1⟩

/-- Response entry whose positional id does not match any transaction
at index 0. -/
def missingIdEntry : TransactionCategory :=
  { transaction_id := "txn_9", category := "other",
    confidence := 1, reasoning := "response for a different index" }

/-- Closed instance of C4: the null response fails validation and the
batch takes the wholesale fallback; and under a valid response whose
only id is `txn_9`, the transaction at index 0 takes the per-item
default. -/
theorem c4_failure_fallback_and_partial_default_witness :
    batch_categorize_with_llm [sampleUncategorized] (LLMOutcome.json JValue.jnull)
      = apply_fallback_categorization [sampleUncategorized]
    ∧ (((apply_llm_categorization [sampleUncategorized] [missingIdEntry])[0]?.get
          (by rfl)).category = "other"
       ∧ ((apply_llm_categorization [sampleUncategorized] [missingIdEntry])[0]?.get
            (by rfl)).confidence = 0.5
       ∧ ((apply_llm_categorization [sampleUncategorized] [missingIdEntry])[0]?.get
            (by rfl)).source = "fallback") :=
  ⟨(c4_failure_fallback_and_partial_default [sampleUncategorized] JValue.jnull).2.2.1 rfl,
   (c4_failure_fallback_and_partial_default [sampleUncategorized]
        (batchToJson [missingIdEntry])).2.2.2.2.2 [missingIdEntry] rfl 0 _
      (Option.some_get _).symm (by rfl)⟩

/-- Fields the categorization stages must leave untouched. -/
def frameFields (t : Transaction) :
    String × String × ℚ × Bool × ℚ × String × String × String :=
  (t.date, t.description, t.amount, t.is_debit, t.balance,
   t.transaction_id, t.original_line, t.pattern_used)

theorem applyLLMFrom_frame (cats : List TransactionCategory) :
    ∀ (k : Nat) (transactions : List Transaction) (i : Nat),
      ((applyLLMFrom cats k transactions)[i]?).map frameFields
        = (transactions[i]?).map frameFields := by
  intro k transactions
  induction transactions generalizing k with
  | nil => intro i; rfl
  | cons a l ih =>
    intro i
    cases i with
    | zero =>
      simp only [applyLLMFrom, List.getElem?_cons_zero, Option.map_some]
      cases catLookup cats ("txn_" ++ toString k) <;> rfl
    | succ i' =>
      simpa only [applyLLMFrom, List.getElem?_cons_succ] using ih (k + 1) i'

/-- C10: the merchant-categorizer application stage and both content
analyzer application stages change only `category`, `confidence`,
`source` and `reasoning`: the date, description, amount, direction,
balance, id, original line and pattern tag at every position are
unchanged, and so are the list lengths. -/
theorem c10_frame_preservation :
    ∀ (transactions : List Transaction) (cats : List TransactionCategory) (i : Nat),
      ((apply_basic_categorization transactions).length = transactions.length
        ∧ (apply_llm_categorization transactions cats).length = transactions.length
        ∧ (apply_fallback_categorization transactions).length = transactions.length)
      ∧ ((apply_basic_categorization transactions)[i]?).map frameFields
          = (transactions[i]?).map frameFields
      ∧ ((apply_llm_categorization transactions cats)[i]?).map frameFields
          = (transactions[i]?).map frameFields
      ∧ ((apply_fallback_categorization transactions)[i]?).map frameFields
          = (transactions[i]?).map frameFields := by
  intro transactions cats i
  refine ⟨⟨by simp [apply_basic_categorization],
           applyLLMFrom_length cats 0 transactions,
           by simp [apply_fallback_categorization]⟩, ?_, ?_, ?_⟩
  · rw [apply_basic_categorization, List.getElem?_map]
    cases transactions[i]? with
    | none => rfl
    | some t =>
      refine congrArg some ?_
      beta_reduce
      split <;> rfl

  · exact applyLLMFrom_frame cats 0 transactions i
  · rw [apply_fallback_categorization, List.getElem?_map]
    cases transactions[i]? <;> rfl

theorem daysInMonth_le_31 (y m : Nat) : daysInMonth y m ≤ 31 := by
  rw [daysInMonth]
  split
  · split <;> omega
  · split <;> omega

theorem mkValidDate_bounds (y m dd : Nat) (d : PyDate)
    (h : mkValidDate y m dd = some d) :
    1 ≤ d.year ∧ d.year ≤ 9999 ∧ 1 ≤ d.month ∧ d.month ≤ 12
      ∧ 1 ≤ d.day ∧ d.day ≤ 31 := by
  rw [mkValidDate] at h
  split at h
  · cases h
    obtain ⟨h1, h2, h3, h4, h5, h6⟩ := by assumption
    exact ⟨h1, h2, h3, h4, h5, le_trans h6 (daysInMonth_le_31 y m)⟩
  · exact absurd h (by simp)

theorem strptimeMDYSlash_bounds (l : List Char) (d : PyDate)
    (h : strptimeMDYSlash l = some d) :
    1 ≤ d.year ∧ d.year ≤ 9999 ∧ 1 ≤ d.month ∧ d.month ≤ 12
      ∧ 1 ≤ d.day ∧ d.day ≤ 31 := by
  rw [strptimeMDYSlash] at h
  obtain ⟨mr, _, h⟩ := firstSome_eq_some _ _ _ h
  cases hc1 : expectChar '/' mr.2 with
  | none => rw [hc1] at h; exact absurd h (by simp)
  | some r2 =>
    rw [hc1] at h
    obtain ⟨dr, _, h⟩ := firstSome_eq_some _ _ _ h
    cases hc2 : expectChar '/' dr.2 with
    | none => rw [hc2] at h; exact absurd h (by simp)
    | some r4 =>
      rw [hc2] at h
      obtain ⟨yr, _, h⟩ := firstSome_eq_some _ _ _ h
      split at h
      · exact mkValidDate_bounds _ _ _ _ h
      · exact absurd h (by simp)

theorem strptimeMDYDash_bounds (l : List Char) (d : PyDate)
    (h : strptimeMDYDash l = some d) :
    1 ≤ d.year ∧ d.year ≤ 9999 ∧ 1 ≤ d.month ∧ d.month ≤ 12
      ∧ 1 ≤ d.day ∧ d.day ≤ 31 := by
  rw [strptimeMDYDash] at h
  obtain ⟨mr, _, h⟩ := firstSome_eq_some _ _ _ h
  cases hc1 : expectChar '-' mr.2 with
  | none => rw [hc1] at h; exact absurd h (by simp)
  | some r2 =>
    rw [hc1] at h
    obtain ⟨dr, _, h⟩ := firstSome_eq_some _ _ _ h
    cases hc2 : expectChar '-' dr.2 with
    | none => rw [hc2] at h; exact absurd h (by simp)
    | some r4 =>
      rw [hc2] at h
      obtain ⟨yr, _, h⟩ := firstSome_eq_some _ _ _ h
      split at h
      · exact mkValidDate_bounds _ _ _ _ h
      · exact absurd h (by simp)

theorem strptimeYMD_bounds (l : List Char) (d : PyDate)
    (h : strptimeYMD l = some d) :
    1 ≤ d.year ∧ d.year ≤ 9999 ∧ 1 ≤ d.month ∧ d.month ≤ 12
      ∧ 1 ≤ d.day ∧ d.day ≤ 31 := by
  rw [strptimeYMD] at h
  obtain ⟨yr, _, h⟩ := firstSome_eq_some _ _ _ h
  cases hc1 : expectChar '-' yr.2 with
  | none => rw [hc1] at h; exact absurd h (by simp)
  | some r2 =>
    rw [hc1] at h
    obtain ⟨mr, _, h⟩ := firstSome_eq_some _ _ _ h
    cases hc2 : expectChar '-' mr.2 with
    | none => rw [hc2] at h; exact absurd h (by simp)
    | some r4 =>
      rw [hc2] at h
      obtain ⟨dr, _, h⟩ := firstSome_eq_some _ _ _ h
      split at h
      · exact mkValidDate_bounds _ _ _ _ h
      · exact absurd h (by simp)

theorem strptimeDBY_bounds (l : List Char) (d : PyDate)
    (h : strptimeDBY l = some d) :
    1 ≤ d.year ∧ d.year ≤ 9999 ∧ 1 ≤ d.month ∧ d.month ≤ 12
      ∧ 1 ≤ d.day ∧ d.day ≤ 31 := by
  rw [strptimeDBY] at h
  obtain ⟨dr, _, h⟩ := firstSome_eq_some _ _ _ h
  cases hc1 : expectChar '-' dr.2 with
  | none => rw [hc1] at h; exact absurd h (by simp)
  | some r2 =>
    rw [hc1] at h
    obtain ⟨br, _, h⟩ := firstSome_eq_some _ _ _ h
    cases hc2 : expectChar '-' br.2 with
    | none => rw [hc2] at h; exact absurd h (by simp)
    | some r4 =>
      rw [hc2] at h
      obtain ⟨yr, _, h⟩ := firstSome_eq_some _ _ _ h
      split at h
      · exact mkValidDate_bounds _ _ _ _ h
      · exact absurd h (by simp)

theorem parse_date_bounds (s : String) (d : PyDate) (h : parse_date s = some d) :
    1 ≤ d.year ∧ d.year ≤ 9999 ∧ 1 ≤ d.month ∧ d.month ≤ 12
      ∧ 1 ≤ d.day ∧ d.day ≤ 31 := by
  rw [parse_date] at h
  cases h1 : strptimeMDYSlash s.data with
  | some d1 => rw [h1] at h; cases h; exact strptimeMDYSlash_bounds _ _ h1
  | none =>
    rw [h1] at h
    cases h2 : strptimeMDYDash s.data with
    | some d2 => rw [h2] at h; cases h; exact strptimeMDYDash_bounds _ _ h2
    | none =>
      rw [h2] at h
      cases h3 : strptimeYMD s.data with
      | some d3 => rw [h3] at h; cases h; exact strptimeYMD_bounds _ _ h3
      | none =>
        rw [h3] at h
        exact strptimeDBY_bounds _ _ h

theorem pad2_shape : ∀ n : Nat, n < 100 →
    (pad2 n).length = 2 ∧ ∀ c ∈ (pad2 n).data, c.isDigit := by
  decide

/-- C8 (amended): for every date string accepted by one of the four
formats — tried in fixed order, first successful parse winning — the
normalized output is `year-MM-DD` with zero-padded two-digit month and
day; the year is rendered unpadded, so the output is the full ten
character `YYYY-MM-DD` form exactly when the parsed year has four
digits. -/
theorem c8_date_normalization_form :
    ∀ (s : String) (d : PyDate), parse_date s = some d →
      strftimeYMD d = toString d.year ++ "-" ++ pad2 d.month ++ "-" ++ pad2 d.day
      ∧ (pad2 d.month).length = 2 ∧ (∀ c ∈ (pad2 d.month).data, c.isDigit)
      ∧ (pad2 d.day).length = 2 ∧ (∀ c ∈ (pad2 d.day).data, c.isDigit) := by
  intro s d h
  obtain ⟨-, -, -, hm12, -, hd31⟩ := parse_date_bounds s d h
  obtain ⟨hml, hmd⟩ := pad2_shape d.month (by omega)
  obtain ⟨hdl, hdd⟩ := pad2_shape d.day (by omega)
  exact ⟨rfl, hml, hmd, hdl, hdd⟩

/-- Counterexample to C8 as stated: `"01/02/0123"` is accepted by the
first format (year 123), and C `strftime` renders `%Y` unpadded, so the
normalized output `"123-01-02"` is not of the ten-character
`YYYY-MM-DD` form. -/
theorem c8_counterexample :
    parse_date "01/02/0123" = some ⟨123, 1, 2⟩
    ∧ normalizeDate ⟨2024, 1, 1⟩ "01/02/0123" = "123-01-02"
    ∧ ("123-01-02" : String).length ≠ 10 :=
  ⟨by decide, by decide, by decide⟩

/-- Closed instance of the amended C8 at the spec scenario date. -/
theorem c8_date_normalization_form_witness :
    strftimeYMD ⟨2024, 2, 1⟩
      = toString (2024 : Nat) ++ "-" ++ pad2 2 ++ "-" ++ pad2 1
    ∧ (pad2 (2 : Nat)).length = 2 :=
  ⟨(c8_date_normalization_form "02/01/2024" ⟨2024, 2, 1⟩ (by decide)).1,
   (c8_date_normalization_form "02/01/2024" ⟨2024, 2, 1⟩ (by decide)).2.1⟩

/-- C5 evaluated on the code: the spec scenario line
`"02/01/2024 DUNKIN DONUTS 8901 -$4.50 $1,851.92"` — the very line the
source comment gives as the Chase-format example — matches none of the
three patterns (every description class excludes digits, so the
reference code `8901` can be covered by neither the description nor the
amount/balance alignment), and the parser drops the line. -/
theorem c5_chase_line_rejected :
    ∀ now : PyDate,
      parse_single_transaction now
        "02/01/2024 DUNKIN DONUTS 8901 -$4.50 $1,851.92" = none := by
  intro now
  rfl

/-- C9: every transaction the parser produces stores a non-negative
amount; the sign of the raw token is folded into `is_debit` and the
stored amount is an absolute value. -/
theorem c9_parser_amount_nonneg :
    ∀ (now : PyDate) (line : String) (t : Transaction),
      parse_single_transaction now line = some t → 0 ≤ t.amount := by
  intro now line t h
  rw [parse_single_transaction] at h
  obtain ⟨pat, _, hpat⟩ := firstSome_eq_some _ _ _ h
  cases hs : rsearch pat.items line.data 0 with
  | none => rw [hs] at hpat; exact absurd hpat (by simp)
  | some pr =>
    rw [hs] at hpat
    obtain ⟨off, ns⟩ := pr
    simp only [Option.some_inj] at hpat
    rw [← hpat]
    simp only [extract_transaction_data]
    exact abs_nonneg _

/-- Closed instance of C9 at a line the Wells Fargo pattern accepts. -/
theorem c9_parser_amount_nonneg_witness :
    0 ≤ ((parse_single_transaction ⟨2024, 1, 1⟩
        "03-01-2024 BURGER KING $8.99 $2,136.68").get (by rfl)).amount :=
  c9_parser_amount_nonneg ⟨2024, 1, 1⟩ _ _ (Option.some_get _).symm
